import Mathlib

/-!
Verification of the Four-Bar Linkage application (src/FourF/FourBar_App.py)
against its natural-language specification.

The repository ships a single source file, the Qt widget layer
`FourBar_App.py`.  The MVC core it imports (`FourBarLinkage_MVC`, holding the
kinematics solver, the oscillator integrator and the simulation loop) is not
part of the repository snapshot, so those components are modelled from the
specification text; every such definition carries a doc comment starting with
`Modelled from the spec:`.  Everything in namespace `FourBarApp` is a direct
shallow embedding of the code of `FourBar_App.py`.

Numbers entered through Qt spin boxes are modelled as rationals; the exact
floating-point rounding of the original is not modelled, but every branch
condition of the embedded handlers is the exact-arithmetic counterpart of the
corresponding Python expression.
-/

namespace FourBarApp

/-- State of the `MainWindow` widget layer: the values currently held by the
double spin boxes created in `_initControls`, plus the `mouseDown` flag set in
`eventFilter` (source lines 66, 73-77, 216-219). -/
structure MainWindowState where
  nud_InputAngle : ℚ
  nud_MinAngle : ℚ
  nud_MaxAngle : ℚ
  nud_Damping : ℚ
  nud_Mass : ℚ
  nud_Spring : ℚ
  mouseDown : Bool
deriving DecidableEq, Repr

/-- Exact-arithmetic counterpart of the Python test `zeta < 0.5` where
`zeta = c / (2 * math.sqrt(k * m))` (source line 158-159).  For `k * m > 0`
the float expression is negative exactly when `c < 0`, and otherwise below
`1/2` exactly when `c ^ 2 < k * m`; the equivalence with the source formula
over the reals is proved in `zetaLtHalf_iff_real` below. -/
def zetaLtHalf (m k c : ℚ) : Bool :=
  decide (c < 0) || decide (c ^ 2 < k * m)

/-- Outcome of `MainWindow.startSimulation` (source lines 153-167): either the
body raised (`ZeroDivisionError` from `c / 0.0` when `k * m = 0`, or a math
domain error when `k * m < 0`), which the blanket `except` only logs, or the
controller call `FBL_C.startSimulation(initial_angle, m, k, c)` is reached.
`started warned initialAngle m k c` records whether the underdamped warning
box was shown and the four arguments passed to the controller. -/
inductive StartResult where
  | exceptionLogged : StartResult
  | started : Bool → ℚ → ℚ → ℚ → ℚ → StartResult
deriving DecidableEq, Repr

/-- Embedding of `MainWindow.startSimulation` (source lines 153-167).
Reads `m, k, c` and the initial angle from the spin boxes; computing
`zeta = c / (2 * math.sqrt(k * m))` raises whenever `k * m <= 0`
(`ZeroDivisionError` at `k * m = 0`, math domain error below), and the
exception is caught by the handler at lines 166-167 which merely logs it.
Otherwise the warning box is shown when `zeta < 0.5` and the controller is
started with the spin-box values. -/
def startSimulation (st : MainWindowState) : StartResult :=
  let m := st.nud_Mass
  let k := st.nud_Spring
  let c := st.nud_Damping
  if k * m ≤ 0 then
    StartResult.exceptionLogged
  else
    StartResult.started (zetaLtHalf m k c) st.nud_InputAngle m k c

/-- Embedding of `MainWindow.updateAngleLimits` (source lines 123-133).
Input: the current values of `nud_MinAngle` and `nud_MaxAngle`.
Output: the spin-box values after the handler ran, and the pair passed to
`FBL_C.setAngleLimits`.  When `min_angle > max_angle` the two are swapped and
written back into the spin boxes before the controller call. -/
def updateAngleLimits (mn mx : ℚ) : (ℚ × ℚ) × (ℚ × ℚ) :=
  if mn > mx then ((mx, mn), (mx, mn)) else ((mn, mx), (mn, mx))

/-- Mouse buttons distinguished by the event filter (only `Qt.LeftButton` is
tested, at source line 216). -/
inductive MouseButton where
  | left | right | middle
deriving DecidableEq, Repr

/-- The graphics-scene events handled by `MainWindow.eventFilter`
(source lines 201-224). -/
inductive SceneEvent where
  | graphicsSceneMouseMove (x y : ℚ)
  | graphicsSceneWheel (delta : ℚ)
  | graphicsSceneMousePress (b : MouseButton)
  | graphicsSceneMouseRelease (b : MouseButton)
deriving DecidableEq, Repr

/-- Observable calls made by `MainWindow.eventFilter` on its collaborators:
window-title update, `FBL_C.moveLinkage`, zoom spin-box stepping, and the
`startSimulation` invocation (whose outcome is recorded). -/
inductive UiEffect where
  | setTitle (x y : ℚ)
  | moveLinkage (x y : ℚ)
  | zoomStepUp
  | zoomStepDown
  | simStart (r : StartResult)
deriving DecidableEq, Repr

/-- Embedding of `MainWindow.eventFilter` (source lines 201-224) restricted to
the scene object.  Returns the new widget state and the list of collaborator
calls, in order.  Note the release branch (lines 218-220) fires for every
mouse button: it clears `mouseDown` and then calls `startSimulation`, which
reads the current spin-box values. -/
def eventFilter (st : MainWindowState) (e : SceneEvent) :
    MainWindowState × List UiEffect :=
  match e with
  | SceneEvent.graphicsSceneMouseMove x y =>
      (st, UiEffect.setTitle x y ::
        (if st.mouseDown then [UiEffect.moveLinkage x y] else []))
  | SceneEvent.graphicsSceneWheel d =>
      (st, [if 0 < d then UiEffect.zoomStepUp else UiEffect.zoomStepDown])
  | SceneEvent.graphicsSceneMousePress b =>
      if b = MouseButton.left then ({ st with mouseDown := true }, []) else (st, [])
  | SceneEvent.graphicsSceneMouseRelease _ =>
      ({ st with mouseDown := false },
        [UiEffect.simStart (startSimulation st)])

end FourBarApp

namespace FourBarCore

/-- Errors of the kinematics solver, from the spec error taxonomy (spec §4.1,
§7). -/
inductive SolveError where
  | LinkageUnreachable | SolverDidNotConverge
deriving DecidableEq, Repr

/-- Error raised by the validated setters (spec §6, §7). -/
inductive SetError where
  | InvalidParameter
deriving DecidableEq, Repr

/-- Simulation-loop state machine states (spec §4.3). -/
inductive SimMode where
  | Stopped | Running | Paused
deriving DecidableEq, Repr

/-- Modelled from the spec: `OscillatorState` (spec §3) — mass, spring
constant, damping coefficient, current angle and angular velocity of the
damped oscillator driving the input link. -/
structure OscState where
  mass : ℚ
  springConstant : ℚ
  dampingCoefficient : ℚ
  angle : ℚ
  angularVelocity : ℚ
deriving DecidableEq, Repr

/-- Modelled from the spec: the simulation-loop state (spec §3, §4.3) — the
state-machine mode, the oscillator, the input-angle bounds, the last committed
(couplerAngle, outputAngle) configuration, the tracer history, and the fixed
time step.  The concrete MVC class holding this data is absent from src. -/
structure SimState where
  mode : SimMode
  osc : OscState
  minAngle : ℚ
  maxAngle : ℚ
  config : ℚ × ℚ
  tracer : List (ℚ × ℚ)
  dt : ℚ
deriving DecidableEq, Repr

/-- Modelled from the spec: one integrator step (spec §4.2), semi-implicit
Euler (the minimum scheme the spec admits) for `m·θ'' + c·θ' + k·θ = 0`:
the acceleration from the oscillator equation updates the velocity, and the
updated velocity advances the angle. -/
def stepOsc (o : OscState) (dt : ℚ) : OscState :=
  let acc := -(o.dampingCoefficient * o.angularVelocity
      + o.springConstant * o.angle) / o.mass
  let v := o.angularVelocity + dt * acc
  { o with angularVelocity := v, angle := o.angle + dt * v }

/-- Modelled from the spec: one `Running` tick of the simulation loop
(spec §4.3): integrator step, then kinematics solve on the resulting angle,
then append the new tracer point, then check the angle against
`[minAngle, maxAngle]`, clamping and inverting the angular velocity on a
breach (elastic limit stop).  On solver failure the loop transitions to
`Stopped`, keeping the last valid configuration and tracer (spec §4.3, §7).
The numeric root finder itself (scipy-based, absent from src) is abstracted
as the parameter `finder`, which maps the post-step input angle to either a
solver error or the pair (new (couplerAngle, outputAngle) configuration, new
tracer point).  In `Paused` and `Stopped` no integration occurs and the state
is retained. -/
def tick (finder : ℚ → Except SolveError ((ℚ × ℚ) × (ℚ × ℚ)))
    (s : SimState) : SimState :=
  match s.mode with
  | SimMode.Running =>
    let o1 := stepOsc s.osc s.dt
    match finder o1.angle with
    | Except.error _ => { s with mode := SimMode.Stopped }
    | Except.ok r =>
        let s1 := { s with osc := o1, config := r.1, tracer := s.tracer ++ [r.2] }
        if s.maxAngle < o1.angle then
          { s1 with
            osc := { o1 with angle := s.maxAngle, angularVelocity := -o1.angularVelocity } }
        else if o1.angle < s.minAngle then
          { s1 with
            osc := { o1 with angle := s.minAngle, angularVelocity := -o1.angularVelocity } }
        else s1
  | _ => s

/-- Modelled from the spec: `resetTracers` clears TracerHistory without
affecting the `Running`/`Paused` state (spec §4.3, §6). -/
def resetTracers (s : SimState) : SimState :=
  { s with tracer := [] }

/-- Modelled from the spec: the validated setter `setOscillatorParams(mass, k,
c)` (spec §6, §7) — fails with `InvalidParameter` on non-positive mass or
negative spring/damping, retaining the prior valid state; otherwise commits
the three oscillator parameters. -/
def setOscillatorParams (s : SimState) (m k c : ℚ) : SimState × Option SetError :=
  if m ≤ 0 ∨ k < 0 ∨ c < 0 then
    (s, some SetError.InvalidParameter)
  else
    ({ s with
       osc := { s.osc with mass := m, springConstant := k, dampingCoefficient := c } },
     none)

/-- The quadrilateral inequality over the rational spin-box lengths: no single
link longer than the sum of the other three (spec §4.1). -/
def quadIneqQ (g a b c : ℚ) : Prop :=
  g ≤ a + b + c ∧ a ≤ g + b + c ∧ b ≤ g + a + c ∧ c ≤ g + a + b

instance (g a b c : ℚ) : Decidable (quadIneqQ g a b c) := by
  unfold quadIneqQ; infer_instance

/-- Modelled from the spec: `solve(linkage, inputAngle)` (spec §4.1) first
validates the quadrilateral inequality on the four link lengths, failing with
`LinkageUnreachable` otherwise; only then does the iterative root-finding
stage run, abstracted here as the parameter `finder` (the scipy-based numeric
stage is absent from src). -/
def solve (finder : ℚ → Except SolveError (ℚ × ℚ))
    (g a b c : ℚ) (inputAngle : ℚ) : Except SolveError (ℚ × ℚ) :=
  if quadIneqQ g a b c then finder inputAngle
  else Except.error SolveError.LinkageUnreachable

/-- Unit vector of a link at angle `ang` (radians), as a complex number. -/
noncomputable def expI (ang : ℝ) : ℂ :=
  Complex.exp ((ang : ℂ) * Complex.I)

/-- A link of length `len` at angle `ang` as a 2-D vector (spec §3 Link
invariant: `endPoint = originPoint + length·(cos angle, sin angle)`). -/
noncomputable def linkVec (len ang : ℝ) : ℂ :=
  (len : ℂ) * expI ang

/-- Modelled from the spec: the loop-closure residual (spec §4.1, glossary) —
the magnitude of the vector sum of the four link vectors around the closed
chain: input link (length `a`, angle `θ`) plus coupler (length `b`, angle
`φ`) minus output link (length `c`, angle `ψ`) minus the ground link (length
`g` along the x-axis). -/
noncomputable def loopResidual (g a b c θ φ ψ : ℝ) : ℝ :=
  ‖linkVec a θ + linkVec b φ - linkVec c ψ - (g : ℂ)‖

/-- The quadrilateral inequality over real lengths (spec §4.1). -/
def quadIneq (g a b c : ℝ) : Prop :=
  g ≤ a + b + c ∧ a ≤ g + b + c ∧ b ≤ g + a + c ∧ c ≤ g + a + b

/-- A sample oscillator state used by concrete witnesses: unit mass, no spring
or damping, angle 170 and angular velocity 100. -/
def sampleOsc : OscState :=
  { mass := 1, springConstant := 0, dampingCoefficient := 0,
    angle := 170, angularVelocity := 100 }

/-- A sample running simulation state used by concrete witnesses. -/
def sampleSim : SimState :=
  { mode := SimMode.Running, osc := sampleOsc, minAngle := 0, maxAngle := 180,
    config := (0, 0), tracer := [(3, 4)], dt := 1 }

/-- A finder that always succeeds, used by concrete witnesses. -/
def okFinder : ℚ → Except SolveError ((ℚ × ℚ) × (ℚ × ℚ)) :=
  fun _ => Except.ok ((0, 0), (1, 2))

/-- A finder that always reports non-convergence, used by concrete
witnesses. -/
def errFinder : ℚ → Except SolveError ((ℚ × ℚ) × (ℚ × ℚ)) :=
  fun _ => Except.error SolveError.SolverDidNotConverge

end FourBarCore

open FourBarApp FourBarCore

/-- Over the reals, the exact test used in the embedding (`c < 0` or
`c ^ 2 < k m`) agrees with the source formula `c / (2 * sqrt (k m)) < 0.5`
whenever `k m > 0`. -/
theorem zetaLtHalf_iff_real (m k c : ℚ) (h : (0 : ℝ) < (k : ℝ) * (m : ℝ)) :
    zetaLtHalf m k c = true ↔
      (c : ℝ) / (2 * Real.sqrt ((k : ℝ) * (m : ℝ))) < 1 / 2 := by
  have hs : 0 < Real.sqrt ((k : ℝ) * (m : ℝ)) := Real.sqrt_pos.mpr h
  have h2s : (0 : ℝ) < 2 * Real.sqrt ((k : ℝ) * (m : ℝ)) := by linarith
  have hiff : (c : ℝ) / (2 * Real.sqrt ((k : ℝ) * (m : ℝ))) < 1 / 2 ↔
      (c : ℝ) < Real.sqrt ((k : ℝ) * (m : ℝ)) := by
    rw [div_lt_iff h2s]
    constructor <;> intro hx <;> nlinarith
  rw [hiff]
  simp only [zetaLtHalf, Bool.or_eq_true, decide_eq_true_eq]
  constructor
  · rintro (hc | hc)
    · have hcr : (c : ℝ) < 0 := by exact_mod_cast hc
      linarith
    · rcases lt_or_le (c : ℝ) 0 with h0 | h0
      · linarith
      · have hq : (c : ℝ) ^ 2 < (k : ℝ) * (m : ℝ) := by exact_mod_cast hc
        exact (Real.lt_sqrt h0).mpr hq
  · intro hlt
    rcases lt_or_le c 0 with h0 | h0
    · exact Or.inl h0
    · right
      have h0r : (0 : ℝ) ≤ (c : ℝ) := by exact_mod_cast h0
      have := (Real.lt_sqrt h0r).mp hlt
      exact_mod_cast this

/-- Claim C2 (code bug): with k m = 0 (mass 1, spring 0, damping 50) the body
of `startSimulation` evaluates `c / (2 * math.sqrt(k * m))`, i.e. it does
perform the division by zero; the resulting `ZeroDivisionError` is swallowed
by the blanket handler and only logged, and no `InvalidOscillatorParameters`
error is raised anywhere in the program. -/
theorem C2_km_zero_division_logged :
    startSimulation
        { nud_InputAngle := 0, nud_MinAngle := 0, nud_MaxAngle := 180,
          nud_Damping := 50, nud_Mass := 1, nud_Spring := 0, mouseDown := false } =
      StartResult.exceptionLogged := by
  norm_num [startSimulation]

/-- Claim C3: for every start with spin-box values satisfying k m > 0, the
warning flag equals the source condition zeta < 0.5 with
zeta = c / (2 sqrt (k m)), and the controller is started with the spin-box
initial angle, mass, spring and damping regardless of the warning. -/
theorem C3_start_warns_and_starts (st : MainWindowState)
    (h : 0 < st.nud_Spring * st.nud_Mass) :
    startSimulation st =
      StartResult.started (zetaLtHalf st.nud_Mass st.nud_Spring st.nud_Damping)
        st.nud_InputAngle st.nud_Mass st.nud_Spring st.nud_Damping ∧
    (zetaLtHalf st.nud_Mass st.nud_Spring st.nud_Damping = true ↔
      (st.nud_Damping : ℝ) /
          (2 * Real.sqrt ((st.nud_Spring : ℝ) * (st.nud_Mass : ℝ))) < 1 / 2) := by
  have hne : ¬ st.nud_Spring * st.nud_Mass ≤ 0 := not_le.mpr h
  constructor
  · simp [startSimulation, hne]
  · apply zetaLtHalf_iff_real
    exact_mod_cast h

/-- Witness for C3 at mass 1, spring 100, damping 5 (zeta = 0.25 < 0.5: the
warning fires and the simulation still starts). -/
theorem C3_start_warns_and_starts_witness :
    0 < (100 : ℚ) * 1 ∧
    startSimulation
        { nud_InputAngle := 7, nud_MinAngle := 0, nud_MaxAngle := 180,
          nud_Damping := 5, nud_Mass := 1, nud_Spring := 100, mouseDown := false } =
      StartResult.started true 7 1 100 5 := by
  refine ⟨by norm_num, ?_⟩
  have h := C3_start_warns_and_starts
    { nud_InputAngle := 7, nud_MinAngle := 0, nud_MaxAngle := 180,
      nud_Damping := 5, nud_Mass := 1, nud_Spring := 100, mouseDown := false }
    (by norm_num)
  rw [h.1]
  norm_num [zetaLtHalf]

/-- Claim C9: the `updateAngleLimits` handler always hands the model a pair
with min below max; when the user-entered pair is reversed it is swapped and
written back into the spin boxes, otherwise it is passed unchanged. -/
theorem C9_angle_limits_normalized (mn mx : ℚ) :
    (updateAngleLimits mn mx).2.1 ≤ (updateAngleLimits mn mx).2.2 ∧
    (mx < mn → updateAngleLimits mn mx = ((mx, mn), (mx, mn))) ∧
    (mn ≤ mx → updateAngleLimits mn mx = ((mn, mx), (mn, mx))) := by
  unfold updateAngleLimits
  by_cases h : mx < mn
  · rw [if_pos h]
    exact ⟨le_of_lt h, fun _ => rfl, fun h2 => absurd h (not_lt.mpr h2)⟩
  · rw [if_neg h]
    push_neg at h
    exact ⟨h, fun h2 => absurd h2 (not_lt.mpr h), fun _ => rfl⟩

/-- Witness for C9 at the reversed pair (3, 1): swapped to (1, 3). -/
theorem C9_angle_limits_normalized_witness :
    (updateAngleLimits 3 1).2.1 ≤ (updateAngleLimits 3 1).2.2 ∧
    ((1 : ℚ) < 3 → updateAngleLimits 3 1 = ((1, 3), (1, 3))) ∧
    ((3 : ℚ) ≤ 1 → updateAngleLimits 3 1 = ((3, 1), (3, 1))) :=
  C9_angle_limits_normalized 3 1

/-- Claim C10 counterexample: with the spring spin box at 0 (an allowed
value, the range starts at 0), releasing the left mouse button does invoke
`startSimulation`, but the attempt dies in the `ZeroDivisionError` that is
merely logged: the oscillator is not re-initialized and the simulation is not
restarted. -/
theorem C10_counterexample :
    (eventFilter
        { nud_InputAngle := 0, nud_MinAngle := 0, nud_MaxAngle := 180,
          nud_Damping := 50, nud_Mass := 1, nud_Spring := 0, mouseDown := true }
        (SceneEvent.graphicsSceneMouseRelease MouseButton.left)).2 =
      [UiEffect.simStart StartResult.exceptionLogged] ∧
    ∀ w i m k c,
      UiEffect.simStart (StartResult.started w i m k c) ∉
        (eventFilter
            { nud_InputAngle := 0, nud_MinAngle := 0, nud_MaxAngle := 180,
              nud_Damping := 50, nud_Mass := 1, nud_Spring := 0, mouseDown := true }
            (SceneEvent.graphicsSceneMouseRelease MouseButton.left)).2 := by
  constructor
  · norm_num [eventFilter, startSimulation]
  · intro w i m k c
    simp [eventFilter, startSimulation]

/-- Claim C10 (amended): every mouse release on the scene clears the
mouse-down flag and invokes `startSimulation`; when the spin-box spring and
mass values satisfy k m > 0 this re-initializes the oscillator — the
controller is started with the current spin-box initial angle, mass, spring
and damping (when k m = 0 the attempt fails and is only logged). -/
theorem C10_release_restarts (st : MainWindowState) (b : MouseButton)
    (h : 0 < st.nud_Spring * st.nud_Mass) :
    eventFilter st (SceneEvent.graphicsSceneMouseRelease b) =
      ({ st with mouseDown := false },
       [UiEffect.simStart (StartResult.started
          (zetaLtHalf st.nud_Mass st.nud_Spring st.nud_Damping)
          st.nud_InputAngle st.nud_Mass st.nud_Spring st.nud_Damping)]) := by
  have hne : ¬ st.nud_Spring * st.nud_Mass ≤ 0 := not_le.mpr h
  simp [eventFilter, startSimulation, hne]

/-- Witness for the amended C10 at mass 1, spring 100, damping 50: the release
clears the flag and restarts with the spin-box values (no warning, since
zeta = 2.5). -/
theorem C10_release_restarts_witness :
    0 < (100 : ℚ) * 1 ∧
    eventFilter
        { nud_InputAngle := 9, nud_MinAngle := 0, nud_MaxAngle := 180,
          nud_Damping := 50, nud_Mass := 1, nud_Spring := 100, mouseDown := true }
        (SceneEvent.graphicsSceneMouseRelease MouseButton.left) =
      ({ nud_InputAngle := 9, nud_MinAngle := 0, nud_MaxAngle := 180,
         nud_Damping := 50, nud_Mass := 1, nud_Spring := 100, mouseDown := false },
       [UiEffect.simStart (StartResult.started false 9 1 100 50)]) := by
  refine ⟨by norm_num, ?_⟩
  have h := C10_release_restarts
    { nud_InputAngle := 9, nud_MinAngle := 0, nud_MaxAngle := 180,
      nud_Damping := 50, nud_Mass := 1, nud_Spring := 100, mouseDown := true }
    MouseButton.left (by norm_num)
  rw [h]
  norm_num [zetaLtHalf]

/-- Claim C4: whenever the four link lengths violate the quadrilateral
inequality, `solve` fails with `LinkageUnreachable` for every input angle,
whatever the numeric root-finding stage would do. -/
theorem C4_unreachable_for_every_angle
    (finder : ℚ → Except SolveError (ℚ × ℚ)) (g a b c θ : ℚ)
    (h : ¬ quadIneqQ g a b c) :
    solve finder g a b c θ = Except.error SolveError.LinkageUnreachable := by
  unfold solve
  rw [if_neg h]

/-- Witness for C4 at the spec scenario: input link 10 while ground, coupler
and output sum to 5. -/
theorem C4_unreachable_witness :
    ¬ quadIneqQ 2 10 2 1 ∧
    solve (fun _ => Except.ok (0, 0)) 2 10 2 1 0 =
      Except.error SolveError.LinkageUnreachable :=
  ⟨by norm_num [quadIneqQ],
   C4_unreachable_for_every_angle _ 2 10 2 1 0 (by norm_num [quadIneqQ])⟩

/-- Claim C5: on a successful `Running` tick the committed input angle always
lands inside the valid band; on a breach it is clamped to the breached bound
and the angular velocity committed is the inverted post-step velocity. -/
theorem C5_limit_stop (finder : ℚ → Except SolveError ((ℚ × ℚ) × (ℚ × ℚ)))
    (s : SimState) (r : (ℚ × ℚ) × (ℚ × ℚ))
    (hrun : s.mode = SimMode.Running)
    (hlim : s.minAngle ≤ s.maxAngle)
    (hok : finder (stepOsc s.osc s.dt).angle = Except.ok r) :
    (s.minAngle ≤ (tick finder s).osc.angle ∧
      (tick finder s).osc.angle ≤ s.maxAngle) ∧
    (s.maxAngle < (stepOsc s.osc s.dt).angle →
      (tick finder s).osc.angle = s.maxAngle ∧
      (tick finder s).osc.angularVelocity =
        -(stepOsc s.osc s.dt).angularVelocity) ∧
    ((stepOsc s.osc s.dt).angle < s.minAngle →
      (tick finder s).osc.angle = s.minAngle ∧
      (tick finder s).osc.angularVelocity =
        -(stepOsc s.osc s.dt).angularVelocity) := by
  simp only [tick, hrun, hok]
  by_cases hmax : s.maxAngle < (stepOsc s.osc s.dt).angle
  · rw [if_pos hmax]
    refine ⟨⟨hlim, le_refl _⟩, fun _ => ⟨rfl, rfl⟩, fun h2 => ?_⟩
    exact absurd h2 (not_lt.mpr (by linarith))
  · by_cases hmin : (stepOsc s.osc s.dt).angle < s.minAngle
    · rw [if_neg hmax, if_pos hmin]
      exact ⟨⟨le_refl _, hlim⟩, fun h2 => absurd h2 hmax, fun _ => ⟨rfl, rfl⟩⟩
    · rw [if_neg hmax, if_neg hmin]
      push_neg at hmax hmin
      exact ⟨⟨hmin, hmax⟩, fun h2 => absurd h2 (not_lt.mpr hmax),
        fun h2 => absurd h2 (not_lt.mpr hmin)⟩

/-- Witness for C5: the sample oscillator steps from angle 170 with velocity
100 to 270, past the max bound 180, and the tick commits angle 180 with
velocity -100. -/
theorem C5_limit_stop_witness :
    (sampleSim.mode = SimMode.Running ∧
      sampleSim.minAngle ≤ sampleSim.maxAngle ∧
      okFinder (stepOsc sampleSim.osc sampleSim.dt).angle =
        Except.ok ((0, 0), (1, 2))) ∧
    ((sampleSim.minAngle ≤ (tick okFinder sampleSim).osc.angle ∧
       (tick okFinder sampleSim).osc.angle ≤ sampleSim.maxAngle) ∧
     (sampleSim.maxAngle < (stepOsc sampleSim.osc sampleSim.dt).angle →
       (tick okFinder sampleSim).osc.angle = sampleSim.maxAngle ∧
       (tick okFinder sampleSim).osc.angularVelocity =
         -(stepOsc sampleSim.osc sampleSim.dt).angularVelocity) ∧
     ((stepOsc sampleSim.osc sampleSim.dt).angle < sampleSim.minAngle →
       (tick okFinder sampleSim).osc.angle = sampleSim.minAngle ∧
       (tick okFinder sampleSim).osc.angularVelocity =
         -(stepOsc sampleSim.osc sampleSim.dt).angularVelocity)) ∧
    (tick okFinder sampleSim).osc.angle = 180 ∧
    (tick okFinder sampleSim).osc.angularVelocity = -100 :=
  ⟨⟨rfl, by norm_num [sampleSim], rfl⟩,
   C5_limit_stop okFinder sampleSim ((0, 0), (1, 2)) rfl (by norm_num [sampleSim]) rfl,
   by norm_num [tick, stepOsc, sampleSim, sampleOsc, okFinder],
   by norm_num [tick, stepOsc, sampleSim, sampleOsc, okFinder]⟩

/-- Claim C6: when the solver fails on a `Running` tick the loop transitions
to `Stopped`, the last valid configuration and oscillator state are retained,
and no point is appended to the tracer history. -/
theorem C6_solver_failure_stops
    (finder : ℚ → Except SolveError ((ℚ × ℚ) × (ℚ × ℚ)))
    (s : SimState) (e : SolveError)
    (hrun : s.mode = SimMode.Running)
    (herr : finder (stepOsc s.osc s.dt).angle = Except.error e) :
    (tick finder s).mode = SimMode.Stopped ∧
    (tick finder s).tracer = s.tracer ∧
    (tick finder s).config = s.config ∧
    (tick finder s).osc = s.osc := by
  simp [tick, hrun, herr]

/-- Witness for C6: a non-convergence failure on the sample running state
stops the loop with tracer, configuration and oscillator untouched. -/
theorem C6_solver_failure_stops_witness :
    (sampleSim.mode = SimMode.Running ∧
      errFinder (stepOsc sampleSim.osc sampleSim.dt).angle =
        Except.error SolveError.SolverDidNotConverge) ∧
    ((tick errFinder sampleSim).mode = SimMode.Stopped ∧
     (tick errFinder sampleSim).tracer = sampleSim.tracer ∧
     (tick errFinder sampleSim).config = sampleSim.config ∧
     (tick errFinder sampleSim).osc = sampleSim.osc) :=
  ⟨⟨rfl, rfl⟩,
   C6_solver_failure_stops errFinder sampleSim SolveError.SolverDidNotConverge rfl rfl⟩

/-- Claim C7: the validated setter rejects a non-positive mass or a negative
spring constant or damping coefficient with `InvalidParameter`, and the prior
valid model state is returned unchanged. -/
theorem C7_setter_rejects_invalid (s : SimState) (m k c : ℚ)
    (h : m ≤ 0 ∨ k < 0 ∨ c < 0) :
    setOscillatorParams s m k c = (s, some SetError.InvalidParameter) := by
  unfold setOscillatorParams
  rw [if_pos h]

/-- Witness for C7 at mass 0 on the sample state. -/
theorem C7_setter_rejects_invalid_witness :
    ((0 : ℚ) ≤ 0 ∨ (1 : ℚ) < 0 ∨ (1 : ℚ) < 0) ∧
    setOscillatorParams sampleSim 0 1 1 =
      (sampleSim, some SetError.InvalidParameter) :=
  ⟨Or.inl le_rfl, C7_setter_rejects_invalid sampleSim 0 1 1 (Or.inl le_rfl)⟩

/-- Claim C8: `resetTracers` empties the tracer history and leaves every other
component of the simulation state — mode included — unchanged. -/
theorem C8_resetTracers_clears_only_tracer (s : SimState) :
    (resetTracers s).tracer = [] ∧
    (resetTracers s).mode = s.mode ∧
    (resetTracers s).osc = s.osc ∧
    (resetTracers s).config = s.config ∧
    (resetTracers s).minAngle = s.minAngle ∧
    (resetTracers s).maxAngle = s.maxAngle ∧
    (resetTracers s).dt = s.dt :=
  ⟨rfl, rfl, rfl, rfl, rfl, rfl, rfl⟩

/-- The unit link direction has norm one. -/
theorem norm_expI (t : ℝ) : ‖expI t‖ = 1 := by
  unfold expI
  rw [Complex.norm_eq_abs]
  exact Complex.abs_exp_ofReal_mul_I t

/-- Euler form of the unit link direction. -/
theorem expI_eq (t : ℝ) :
    expI t = ((Real.cos t : ℝ) : ℂ) + ((Real.sin t : ℝ) : ℂ) * Complex.I := by
  unfold expI
  rw [Complex.exp_mul_I, Complex.ofReal_cos, Complex.ofReal_sin]

/-- Every unit-norm complex number is the direction of its own argument. -/
theorem expI_arg {z : ℂ} (hz : ‖z‖ = 1) : expI (Complex.arg z) = z := by
  have h := Complex.abs_mul_exp_arg_mul_I z
  rw [← Complex.norm_eq_abs, hz] at h
  simpa [expI] using h

/-- Law-of-cosines form of the distance from a point at distance `b` and
relative angle `t` to a point at distance `d` along the reference axis. -/
theorem norm_b_expI_sub (b d t : ℝ) :
    ‖(b : ℂ) * expI t - (d : ℂ)‖ =
      Real.sqrt (b ^ 2 + d ^ 2 - 2 * b * d * Real.cos t) := by
  rw [expI_eq]
  have hz : (b : ℂ) * (((Real.cos t : ℝ) : ℂ) + ((Real.sin t : ℝ) : ℂ) * Complex.I)
      - (d : ℂ)
      = ((b * Real.cos t - d : ℝ) : ℂ) + ((b * Real.sin t : ℝ) : ℂ) * Complex.I := by
    push_cast
    ring
  rw [hz, Complex.norm_eq_abs, Complex.abs_apply, Complex.normSq_add_mul_I]
  congr 1
  have hsc : Real.sin t ^ 2 + Real.cos t ^ 2 = 1 := Real.sin_sq_add_cos_sq t
  linear_combination b ^ 2 * hsc

/-- Two-circle intersection: whenever the distance from the input link tip to
the far ground pivot lies between the difference and the sum of the coupler
and output lengths, some coupler and output angles close the loop exactly. -/
theorem closure_exists (g a b c θ : ℝ) (hb : 0 < b) (hc : 0 < c)
    (h1 : |b - c| ≤ ‖(g : ℂ) - linkVec a θ‖)
    (h2 : ‖(g : ℂ) - linkVec a θ‖ ≤ b + c) :
    ∃ φ ψ : ℝ, loopResidual g a b c θ φ ψ = 0 := by
  set w : ℂ := (g : ℂ) - linkVec a θ with hw
  by_cases hw0 : w = 0
  · -- the input tip sits on the far ground pivot, so b = c and any common
    -- angle closes the loop
    have hd0 : ‖w‖ = 0 := by rw [hw0, norm_zero]
    rw [hd0] at h1
    have h0 : |b - c| = 0 := le_antisymm h1 (abs_nonneg _)
    have hbc : b = c := by
      have := abs_eq_zero.mp h0
      linarith
    have h00 : (g : ℂ) - linkVec a θ = 0 := by rw [← hw]; exact hw0
    have hA : linkVec a θ = (g : ℂ) := (sub_eq_zero.mp h00).symm
    refine ⟨0, 0, ?_⟩
    unfold loopResidual
    rw [hA, hbc]
    have hzero : (g : ℂ) + linkVec c 0 - linkVec c 0 - (g : ℂ) = 0 := by ring
    rw [hzero, norm_zero]
  · have hd : 0 < ‖w‖ := norm_pos_iff.mpr hw0
    set d : ℝ := ‖w‖ with hdd
    have habs := abs_le.mp h1
    have h2bd : 0 < 2 * b * d := by positivity
    set x : ℝ := (b ^ 2 + d ^ 2 - c ^ 2) / (2 * b * d) with hx
    have hx1 : x ≤ 1 := by
      rw [hx, div_le_one h2bd]
      nlinarith [mul_nonneg (by linarith [habs.2] : (0 : ℝ) ≤ c - (b - d))
        (by linarith [h2] : (0 : ℝ) ≤ c + (b - d))]
    have hx2 : -1 ≤ x := by
      rw [hx, le_div_iff h2bd]
      nlinarith [mul_nonneg (by linarith [habs.1] : (0 : ℝ) ≤ b + d - c)
        (by linarith [hb.le, hd.le, hc.le] : (0 : ℝ) ≤ b + d + c)]
    set α : ℝ := Real.arccos x with hα
    have hcos : Real.cos α = x := Real.cos_arccos hx2 hx1
    have hdC : ((d : ℝ) : ℂ) ≠ 0 := by
      exact_mod_cast ne_of_gt hd
    set z : ℂ := w / (d : ℂ) * expI α with hz
    have hu : ‖w / (d : ℂ)‖ = 1 := by
      rw [norm_div, Complex.norm_real, Real.norm_eq_abs, abs_of_pos hd, ← hdd,
        div_self (ne_of_gt hd)]
    have hnz : ‖z‖ = 1 := by
      rw [hz, norm_mul, hu, norm_expI, one_mul]
    have hA : linkVec a θ = (g : ℂ) - w := by rw [hw]; ring
    have hQ : linkVec a θ + (b : ℂ) * z - (g : ℂ)
        = w / (d : ℂ) * ((b : ℂ) * expI α - (d : ℂ)) := by
      rw [hA, hz]
      field_simp
      ring
    have h2bdx : 2 * b * d * x = b ^ 2 + d ^ 2 - c ^ 2 := by
      rw [hx]
      field_simp
    have hQn : ‖linkVec a θ + (b : ℂ) * z - (g : ℂ)‖ = c := by
      rw [hQ, norm_mul, hu, one_mul, norm_b_expI_sub, hcos]
      rw [show b ^ 2 + d ^ 2 - 2 * b * d * x = c ^ 2 from by linarith [h2bdx]]
      exact Real.sqrt_sq hc.le
    have hψ : ((c : ℝ) : ℂ) *
        expI (Complex.arg (linkVec a θ + (b : ℂ) * z - (g : ℂ)))
        = linkVec a θ + (b : ℂ) * z - (g : ℂ) := by
      have h := Complex.abs_mul_exp_arg_mul_I (linkVec a θ + (b : ℂ) * z - (g : ℂ))
      rw [← Complex.norm_eq_abs, hQn] at h
      simpa [expI] using h
    refine ⟨Complex.arg z, Complex.arg (linkVec a θ + (b : ℂ) * z - (g : ℂ)), ?_⟩
    have hbz : linkVec b (Complex.arg z) = (b : ℂ) * z := by
      unfold linkVec
      rw [expI_arg hnz]
    have hcz : linkVec c (Complex.arg (linkVec a θ + (b : ℂ) * z - (g : ℂ)))
        = linkVec a θ + (b : ℂ) * z - (g : ℂ) := by
      unfold linkVec
      exact hψ
    unfold loopResidual
    rw [hbz, hcz]
    have hzero : linkVec a θ + (b : ℂ) * z
        - (linkVec a θ + (b : ℂ) * z - (g : ℂ)) - (g : ℂ) = 0 := by ring
    rw [hzero, norm_zero]

/-- Claim C1 counterexample: the linkage with ground 1, input 1, coupler 1 and
output 5/2 satisfies the quadrilateral inequality with positive lengths, the
input angle pi/2 lies inside the default limits [0, pi], and yet no coupler
and output angles bring the loop-closure residual within 1e-6 of the total
link-length scale: the loop cannot close there at all (residual at least
3/2 - sqrt 2). -/
theorem C1_counterexample :
    ((0 : ℝ) < 1 ∧ (0 : ℝ) < 1 ∧ (0 : ℝ) < 1 ∧ (0 : ℝ) < 5 / 2) ∧
    quadIneq 1 1 1 (5 / 2) ∧
    (0 : ℝ) ≤ Real.pi / 2 ∧ Real.pi / 2 ≤ Real.pi ∧
    ¬ ∃ φ ψ : ℝ,
        loopResidual 1 1 1 (5 / 2) (Real.pi / 2) φ ψ ≤
          1 / 1000000 * (1 + 1 + 1 + 5 / 2) := by
  have hpi := Real.pi_pos
  refine ⟨⟨by norm_num, by norm_num, by norm_num, by norm_num⟩,
    by unfold quadIneq; norm_num, by linarith, by linarith, ?_⟩
  rintro ⟨φ, ψ, hle⟩
  have hA : linkVec 1 (Real.pi / 2) = Complex.I := by
    unfold linkVec
    rw [expI_eq, Real.cos_pi_div_two, Real.sin_pi_div_two]
    push_cast
    ring
  have hkey : 3 / 2 - Real.sqrt 2 ≤ loopResidual 1 1 1 (5 / 2) (Real.pi / 2) φ ψ := by
    unfold loopResidual
    simp only [Complex.ofReal_one]
    have t1 : ‖linkVec ((5 : ℝ) / 2) ψ‖ = 5 / 2 := by
      unfold linkVec
      rw [norm_mul, norm_expI, mul_one, Complex.norm_real, Real.norm_eq_abs]
      norm_num
    have t3 : ‖linkVec (1 : ℝ) φ‖ = 1 := by
      unfold linkVec
      rw [norm_mul, norm_expI, mul_one, Complex.norm_real, Real.norm_eq_abs]
      norm_num
    have t2 : ‖linkVec (1 : ℝ) (Real.pi / 2) - (1 : ℂ)‖ = Real.sqrt 2 := by
      rw [hA]
      rw [show Complex.I - (1 : ℂ) = ((-1 : ℝ) : ℂ) + ((1 : ℝ) : ℂ) * Complex.I from
        by push_cast; ring]
      rw [Complex.norm_eq_abs, Complex.abs_apply, Complex.normSq_add_mul_I]
      norm_num
    have e1 : linkVec (1 : ℝ) (Real.pi / 2) + linkVec (1 : ℝ) φ
        - linkVec ((5 : ℝ) / 2) ψ - (1 : ℂ) =
        -(linkVec ((5 : ℝ) / 2) ψ
          - ((linkVec (1 : ℝ) (Real.pi / 2) - (1 : ℂ)) + linkVec (1 : ℝ) φ)) := by
      ring
    rw [e1, norm_neg]
    have e2 := norm_sub_norm_le (linkVec ((5 : ℝ) / 2) ψ)
      ((linkVec (1 : ℝ) (Real.pi / 2) - (1 : ℂ)) + linkVec (1 : ℝ) φ)
    have e3 := norm_add_le (linkVec (1 : ℝ) (Real.pi / 2) - (1 : ℂ))
      (linkVec (1 : ℝ) φ)
    rw [t1] at e2
    rw [t2, t3] at e3
    linarith
  have hs2 : Real.sqrt 2 < 142 / 100 := by
    rw [Real.sqrt_lt' (by norm_num)]
    norm_num
  linarith

/-- Claim C1 (amended): for every linkage with positive link lengths
satisfying the quadrilateral inequality and every in-range input angle at
which the loop can actually close — the distance from the input link tip to
the far ground pivot lies between the difference and the sum of the coupler
and output lengths — some coupler/output configuration has loop-closure
residual within 1e-6 of the link-length scale (indeed residual zero), which
is what the contract of `solve` returns there. -/
theorem C1_residual_within_tolerance (g a b c θ minA maxA : ℝ)
    (hg : 0 < g) (ha : 0 < a) (hb : 0 < b) (hc : 0 < c)
    (hq : quadIneq g a b c)
    (hθ1 : minA ≤ θ) (hθ2 : θ ≤ maxA)
    (h1 : |b - c| ≤ ‖(g : ℂ) - linkVec a θ‖)
    (h2 : ‖(g : ℂ) - linkVec a θ‖ ≤ b + c) :
    ∃ φ ψ : ℝ, loopResidual g a b c θ φ ψ ≤ 1 / 1000000 * (g + a + b + c) := by
  obtain ⟨φ, ψ, h0⟩ := closure_exists g a b c θ hb hc h1 h2
  refine ⟨φ, ψ, ?_⟩
  rw [h0]
  linarith [hg, ha, hb, hc]

/-- Witness for the amended C1 at the spec regression linkage (ground 4,
input 2, coupler 3, output 3) with input angle 0 inside limits [0, 1]. -/
theorem C1_residual_within_tolerance_witness :
    ((0 : ℝ) < 4 ∧ (0 : ℝ) < 2 ∧ (0 : ℝ) < 3 ∧ (0 : ℝ) < 3) ∧
    quadIneq 4 2 3 3 ∧ ((0 : ℝ) ≤ 0 ∧ (0 : ℝ) ≤ 1) ∧
    |(3 : ℝ) - 3| ≤ ‖((4 : ℝ) : ℂ) - linkVec 2 0‖ ∧
    ‖((4 : ℝ) : ℂ) - linkVec 2 0‖ ≤ 3 + 3 ∧
    ∃ φ ψ : ℝ, loopResidual 4 2 3 3 0 φ ψ ≤ 1 / 1000000 * (4 + 2 + 3 + 3) := by
  have he0 : expI 0 = 1 := by
    rw [expI_eq]
    norm_num
  have hlv : ‖((4 : ℝ) : ℂ) - linkVec 2 0‖ = 2 := by
    unfold linkVec
    rw [he0, mul_one]
    rw [show ((4 : ℝ) : ℂ) - ((2 : ℝ) : ℂ) = ((2 : ℝ) : ℂ) from by push_cast; ring]
    rw [Complex.norm_real, Real.norm_eq_abs]
    norm_num
  refine ⟨⟨by norm_num, by norm_num, by norm_num, by norm_num⟩,
    by unfold quadIneq; norm_num, ⟨le_refl 0, by norm_num⟩, ?_, ?_, ?_⟩
  · rw [hlv]
    norm_num
  · rw [hlv]
    norm_num
  · exact C1_residual_within_tolerance 4 2 3 3 0 0 1 (by norm_num) (by norm_num)
      (by norm_num) (by norm_num) (by unfold quadIneq; norm_num) (le_refl 0)
      (by norm_num) (by rw [hlv]; norm_num) (by rw [hlv]; norm_num)
